import Mathlib

/-!
Verification of the latent-semantic (TF-IDF + truncated SVD) streamer search
engine of `src/backend/app.py`.

Numeric model: Python floats are modelled as exact rational numbers (`ℚ`),
numpy 1-D arrays as `List ℚ`, and numpy 2-D arrays as row-major lists of rows.
All definitions are executable so that concrete runs of the engine can be
evaluated inside proofs.
-/

/-- Dot product of two rational vectors (numpy `a @ b` on 1-D operands).
`zipWith` truncates at the shorter operand; this coincides with numpy
whenever the shapes agree, which the theorems assume where it matters. -/
def dotL (xs ys : List ℚ) : ℚ := (List.zipWith (fun a b => a * b) xs ys).sum

/-- Sum of squares of a vector: the square of its Euclidean (L2) norm. -/
def sumSq (xs : List ℚ) : ℚ := (xs.map (fun a => a * a)).sum

/-- Elementwise negation, numpy unary minus (as in `-similarities`). -/
def negL (xs : List ℚ) : List ℚ := xs.map (fun a => -a)

/-- Round-half-to-even on rationals: the rounding mode of Python `round`
(Python's `round(x, 2)` is modelled exactly over `ℚ` as
`pyRoundHalfEven (x * 100) / 100`, see `pyRound2`). -/
def pyRoundHalfEven (x : ℚ) : ℤ :=
  if Int.fract x < 1/2 then Int.floor x
  else if 1/2 < Int.fract x then Int.floor x + 1
  else if 2 ∣ Int.floor x then Int.floor x else Int.floor x + 1

/-- Python `round(x, 2)`: round to 2 decimal digits, half to even. -/
def pyRound2 (x : ℚ) : ℚ := ((pyRoundHalfEven (x * 100) : ℤ) : ℚ) / 100

/-- Comparison used to model `np.argsort` over a value array `x`: position `i`
precedes position `j` when its value is strictly smaller, with equal values
ordered by ascending position.  numpy's default sort kind documents only that
the output indices sort the array and leaves the relative order of equal
values unspecified (it is guaranteed ascending only for the stable kinds), so
an executable model must fix one refinement; this embedding fixes the
ascending-index one, and the theorems drawn from it below depend only on
properties shared by every valid argsort output (a sorting permutation),
never on the tie order itself. -/
def idxLe (x : List ℚ) (i j : Nat) : Prop :=
  x.getD i 0 < x.getD j 0 ∨ (x.getD i 0 = x.getD j 0 ∧ i ≤ j)

instance (x : List ℚ) : DecidableRel (idxLe x) := fun i j => by
  unfold idxLe; infer_instance

instance (x : List ℚ) : IsTotal Nat (idxLe x) := by
  constructor
  intro i j
  rcases lt_trichotomy (x.getD i 0) (x.getD j 0) with h | h | h
  · exact Or.inl (Or.inl h)
  · rcases Nat.le_total i j with hij | hij
    · exact Or.inl (Or.inr ⟨h, hij⟩)
    · exact Or.inr (Or.inr ⟨h.symm, hij⟩)
  · exact Or.inr (Or.inl h)

instance (x : List ℚ) : IsTrans Nat (idxLe x) := by
  constructor
  intro i j k hij hjk
  rcases hij with h1 | ⟨h1, h1n⟩ <;> rcases hjk with h2 | ⟨h2, h2n⟩
  · exact Or.inl (lt_trans h1 h2)
  · exact Or.inl (h2 ▸ h1)
  · exact Or.inl (h1 ▸ h2)
  · exact Or.inr ⟨h1.trans h2, le_trans h1n h2n⟩

/-- Model of `np.argsort x` (ascending): a permutation of
`0, ..., x.length - 1` sorted by value.  The concrete tie order (ascending
position, see `idxLe`) is one refinement of numpy's underspecified default;
no theorem below relies on it. -/
def argsort (x : List ℚ) : List Nat := List.insertionSort (idxLe x) (List.range x.length)

/-- Payload of one document in the lookup table: either a JSON-style record
(string keys mapping to string-rendered values) or a bare string, mirroring
the payload shapes the four corpora of init.json produce. -/
inductive PyData where
  | dict (entries : List (String × String))
  | str (s : String)
deriving DecidableEq

/-- Python data[k] / data.get(k) on a record payload; a bare string has no
keys. -/
def PyData.get? : PyData → String → Option String
  | .dict es, k => es.lookup k
  | .str _, _ => none

/-- Whether the payload is a bare string (Python isinstance(data, str)). -/
def PyData.isStr : PyData → Bool
  | .str _ => true
  | .dict _ => false

/-- Whether the payload is a record (Python isinstance(data, dict)). -/
def PyData.isDict : PyData → Bool
  | .str _ => false
  | .dict _ => true

/-- One entry of self.doc_lookup: the tuple (source, streamer, idx, data). -/
structure DocEntry where
  source : String
  streamer : String
  idx : Nat
  data : PyData
deriving DecidableEq

instance : Inhabited DocEntry := ⟨⟨"", "", 0, .str ""⟩⟩

/-- One explanation entry appended to result["top_dimensions"]
(lines 134-141). -/
structure TopDim where
  index : Nat
  label : String
  contribution : ℚ
deriving DecidableEq

instance : Inhabited TopDim := ⟨⟨0, "", 0⟩⟩

/-- One result record built by OptimizedTFIDFSVDSearch.query.  The keys
reddit_score and id exist only in the reddit arm; Option models key
presence. -/
structure ResultRec where
  source : String
  name : String
  doc : String
  sim_score : ℚ
  reddit_score : Option String
  id : Option String
  top_dimensions : List TopDim
deriving DecidableEq

instance : Inhabited ResultRec := ⟨⟨"", "", "", 0, none, none, []⟩⟩

/-- The loaded search-engine state (class OptimizedTFIDFSVDSearch after
load_model).  The fitted TF-IDF vectorizer artifact is modelled by its
transform function, text to dense tf-idf row; all numpy arrays are lists of
rationals. -/
structure OptimizedTFIDFSVDSearch where
  vectorizer : String → List ℚ
  u : List (List ℚ)
  s : List ℚ
  vt : List (List ℚ)
  docs_compressed : List (List ℚ)
  doc_lookup : List DocEntry
  index_to_word : List String
  dimension_labels : List String

/-- Line 101: query_vec = query_tfidf @ self.vt.T; entry j is the dot product
of the tf-idf row with row j of Vt. -/
def OptimizedTFIDFSVDSearch.query_vec (e : OptimizedTFIDFSVDSearch)
    (query_text : String) : List ℚ :=
  e.vt.map (fun row => dotL (e.vectorizer query_text) row)

/-- Line 104: weighted_query_vec = query_vec @ np.diag(self.s): dimension j
is scaled by the j-th singular value. -/
def OptimizedTFIDFSVDSearch.weighted_query_vec (e : OptimizedTFIDFSVDSearch)
    (query_text : String) : List ℚ :=
  List.zipWith (fun a b => a * b) (e.query_vec query_text) e.s

/-- Line 107: query_vec_norm = sklearn.preprocessing.normalize(weighted) on a
one-row matrix.  sklearn replaces a zero row norm by 1, so a zero vector is
returned unchanged (no NaN and no error).  Since the Euclidean norm of a
rational vector is irrational in general, normalization is expressed
relationally: SklearnNormalize w q c holds when q is the normalized row of w
and c the (positive) norm divided by, or w is the zero vector and q = w. -/
def SklearnNormalize (w q : List ℚ) (c : ℚ) : Prop :=
  (sumSq w = 0 ∧ q = w) ∨ (0 < c ∧ c * c = sumSq w ∧ q = w.map (fun a => a / c))

/-- Line 113: similarities = self.docs_compressed @ query_vec_norm.T, as the
flat per-document score vector (entry i = similarities[i, 0]). -/
def OptimizedTFIDFSVDSearch.similarities (e : OptimizedTFIDFSVDSearch)
    (qnorm : List ℚ) : List ℚ :=
  e.docs_compressed.map (fun row => dotL row qnorm)

/-- Line 116: top_indices = np.argsort(-similarities.flatten())[:top_k]. -/
def OptimizedTFIDFSVDSearch.top_indices (e : OptimizedTFIDFSVDSearch)
    (qnorm : List ℚ) (top_k : Nat) : List Nat :=
  (argsort (negL (e.similarities qnorm))).take top_k

/-- Line 131: dimension_contributions = doc_factors * query_factors, the
elementwise product of the un-normalized row U[doc_idx] with the normalized
query row. -/
def OptimizedTFIDFSVDSearch.dimension_contributions (e : OptimizedTFIDFSVDSearch)
    (qnorm : List ℚ) (doc_idx : Nat) : List ℚ :=
  List.zipWith (fun a b => a * b) (e.u.getD doc_idx []) qnorm

/-- Lines 132-141: top_dim_indices = np.argsort(-contributions)[:3] and the
per-dimension records (index, label, contribution). -/
def OptimizedTFIDFSVDSearch.top_dimensions (e : OptimizedTFIDFSVDSearch)
    (qnorm : List ℚ) (doc_idx : Nat) : List TopDim :=
  ((argsort (negL (e.dimension_contributions qnorm doc_idx))).take 3).map
    (fun dim_idx =>
      ⟨dim_idx, e.dimension_labels.getD dim_idx "",
        (e.dimension_contributions qnorm doc_idx).getD dim_idx 0⟩)

/-- Line 151 and friends: text[:150] + "..." if len(text) > 150 else text. -/
def truncDoc (text : String) : String :=
  if text.length > 150 then text.take 150 ++ "..." else text

/-- Lines 143-184: the if/elif chain over the source tag.  Returns
.ok (some r) when an arm matched and built a record, .ok none when no arm
matched (the Python loop variable result is left unassigned by this
iteration), and .error for an exception raised inside an arm (missing key or
wrong payload shape). -/
def formatResult (source streamer : String) (data : PyData) (sim_score : ℚ)
    (top_dims : List TopDim) : Except String (Option ResultRec) :=
  if source = "reddit" then
    match data.get? "Title", data.get? "Score", data.get? "ID" with
    | some text, some score, some rid =>
        .ok (some ⟨source, streamer, truncDoc text, sim_score, some score, some rid, top_dims⟩)
    | _, _, _ => .error "KeyError"
  else if source = "twitter" then
    match data with
    | .str text => .ok (some ⟨source, streamer, truncDoc text, sim_score, none, none, top_dims⟩)
    | .dict _ => .error "TypeError"
  else if source = "wiki" then
    match data with
    | .dict _ =>
      match data.get? "wikipedia_summary" with
      | some text =>
          .ok (some ⟨source, streamer, truncDoc text, sim_score, none, none, top_dims⟩)
      | none => .error "KeyError"
    | .str sdata => .ok (some ⟨source, streamer, truncDoc sdata, sim_score, none, none, top_dims⟩)
  else if source = "details" then
    match data with
    | .dict _ =>
        .ok (some ⟨source, streamer,
          truncDoc ((data.get? "Description").getD ""), sim_score, none, none, top_dims⟩)
    | .str _ => .error "AttributeError"
  else .ok none

/-- Lines 121-185: the result-formatting loop, with Python function scoping
made explicit: the variable result survives loop iterations, so after an
iteration whose source tag matches no arm, results.append(result) appends the
record of the most recent matching iteration again, and raises
UnboundLocalError when there has been none. -/
def formatLoop (e : OptimizedTFIDFSVDSearch) (qnorm : List ℚ) :
    List Nat → Option ResultRec → Except String (List ResultRec)
  | [], _ => .ok []
  | doc_idx :: rest, result =>
    match e.doc_lookup.get? doc_idx with
    | none => .error "KeyError"
    | some entry =>
      match (e.similarities qnorm).get? doc_idx with
      | none => .error "IndexError"
      | some similarity_score =>
        match e.u.get? doc_idx with
        | none => .error "IndexError"
        | some _ =>
          match formatResult entry.source entry.streamer entry.data
              (pyRound2 (similarity_score * 100)) (e.top_dimensions qnorm doc_idx) with
          | .error msg => .error msg
          | .ok r? =>
            match (match r? with | some r => some r | none => result) with
            | none => .error "UnboundLocalError"
            | some r =>
              match formatLoop e qnorm rest (some r) with
              | .error msg => .error msg
              | .ok others => .ok (r :: others)

/-- Lines 109-188: the query pipeline once the normalized query row qnorm
(line 107's query_vec_norm[0]) is fixed. -/
def OptimizedTFIDFSVDSearch.queryOnNormalized (e : OptimizedTFIDFSVDSearch)
    (qnorm : List ℚ) (top_k : Nat) : Except String (List ResultRec) :=
  formatLoop e qnorm (e.top_indices qnorm top_k) none

/-- Lines 93-188: the full query method.  QueryResult e text top_k out holds
when out is the return of e.query(text, top_k), i.e. when out is the ranked
list computed from some qnorm related to the weighted query vector by
SklearnNormalize.  The relation is deterministic (queryResult-uniqueness is
claim C8). -/
def QueryResult (e : OptimizedTFIDFSVDSearch) (text : String) (top_k : Nat)
    (out : Except String (List ResultRec)) : Prop :=
  ∃ qnorm c, SklearnNormalize (e.weighted_query_vec text) qnorm c ∧
    out = e.queryOnNormalized qnorm top_k

/-- Lines 190-198: analyze_svd_components. -/
def OptimizedTFIDFSVDSearch.analyze_svd_components (e : OptimizedTFIDFSVDSearch)
    (n_terms : Nat) : List (Nat × List String × String) :=
  (List.range e.dimension_labels.length).map (fun i =>
    let dimension := e.vt.getD i []
    let top_idx := (argsort (negL dimension)).take n_terms
    (i, top_idx.map (fun idx => e.index_to_word.getD idx ""), e.dimension_labels.getD i ""))

/-- Lines 200-202: plot_singular_values returns self.s unmodified. -/
def OptimizedTFIDFSVDSearch.plot_singular_values (e : OptimizedTFIDFSVDSearch) : List ℚ :=
  e.s

/-- The record the loop builds for an in-range document whose source arm
matches (the pure view of one iteration of lines 122-185). -/
def OptimizedTFIDFSVDSearch.fmtDoc (e : OptimizedTFIDFSVDSearch) (qnorm : List ℚ)
    (doc_idx : Nat) : ResultRec :=
  match formatResult (e.doc_lookup.getD doc_idx default).source
      (e.doc_lookup.getD doc_idx default).streamer
      (e.doc_lookup.getD doc_idx default).data
      (pyRound2 ((e.similarities qnorm).getD doc_idx 0 * 100))
      (e.top_dimensions qnorm doc_idx) with
  | .ok (some r) => r
  | _ => default

/-- Source/payload agreement for one document entry: the source tag is in the
recognized closed set and the payload has the shape its arm dereferences. -/
def SourceDataOK (source : String) (data : PyData) : Prop :=
  (source = "reddit" ∧ (data.get? "Title").isSome = true ∧
    (data.get? "Score").isSome = true ∧ (data.get? "ID").isSome = true) ∨
  (source = "twitter" ∧ data.isStr = true) ∨
  (source = "wiki" ∧ (data.isStr = true ∨ (data.get? "wikipedia_summary").isSome = true)) ∨
  (source = "details" ∧ data.isDict = true)

instance (source : String) (data : PyData) : Decidable (SourceDataOK source data) := by
  unfold SourceDataOK
  infer_instance

/-- A well-formed document entry (recognized source, matching payload). -/
def EntryOK (d : DocEntry) : Prop := SourceDataOK d.source d.data

instance (d : DocEntry) : Decidable (EntryOK d) := by
  unfold EntryOK
  infer_instance

/-- Shape consistency of the loaded artifacts (spec section 3): n_docs rows
in U, the compressed matrix and the document table; k singular values, k rows
of Vt, k dimension labels, and k-dimensional rows of U. -/
structure ArtifactShapes (e : OptimizedTFIDFSVDSearch) (n_docs k : Nat) : Prop where
  hdocs : e.docs_compressed.length = n_docs
  hlookup : e.doc_lookup.length = n_docs
  hu : e.u.length = n_docs
  hurows : ∀ row ∈ e.u, row.length = k
  hs : e.s.length = k
  hvt : e.vt.length = k
  hlabels : e.dimension_labels.length = k

/-- A tiny concrete engine used to exercise the code in closed theorems: two
unit documents in a one-dimensional concept space over a two-term vocabulary;
its vectorizer artifact maps every text to the zero tf-idf row (no vocabulary
overlap with any query). -/
def engineW : OptimizedTFIDFSVDSearch where
  vectorizer := fun _ => [0, 0]
  u := [[1], [2]]
  s := [3]
  vt := [[1, 1]]
  docs_compressed := [[1], [-1]]
  doc_lookup := [DocEntry.mk "twitter" "alice" 0 (PyData.str "hello"),
                 DocEntry.mk "twitter" "bob" 1 (PyData.str "world")]
  index_to_word := ["a", "b"]
  dimension_labels := ["dim0"]

/-- Concrete engine whose second-ranked document carries the unrecognized
source tag "instagram". -/
def engineBugDup : OptimizedTFIDFSVDSearch where
  vectorizer := fun _ => [0, 0]
  u := [[1], [1]]
  s := [1]
  vt := [[1, 1]]
  docs_compressed := [[1], [1]]
  doc_lookup := [DocEntry.mk "twitter" "alice" 0 (PyData.str "hello"),
                 DocEntry.mk "instagram" "bob" 1 (PyData.str "world")]
  index_to_word := ["a", "b"]
  dimension_labels := ["dim0"]

/-- Concrete engine whose top-ranked document carries the unrecognized source
tag "instagram". -/
def engineBugFirst : OptimizedTFIDFSVDSearch where
  vectorizer := fun _ => [0, 0]
  u := [[1], [1]]
  s := [1]
  vt := [[1, 1]]
  docs_compressed := [[1], [1]]
  doc_lookup := [DocEntry.mk "instagram" "alice" 0 (PyData.str "hello"),
                 DocEntry.mk "twitter" "bob" 1 (PyData.str "world")]
  index_to_word := ["a", "b"]
  dimension_labels := ["dim0"]

/-- The record the loop builds for the first document of engineW under the
zero normalized query row. -/
def recW0 : ResultRec :=
  ResultRec.mk "twitter" "alice" "hello" 0 none none [TopDim.mk 0 "dim0" 0]

/-- The record the loop builds for the second document of engineW under the
zero normalized query row. -/
def recW1 : ResultRec :=
  ResultRec.mk "twitter" "bob" "world" 0 none none [TopDim.mk 0 "dim0" 0]

/-- The record built for the first (recognized) document of engineBugDup. -/
def recDup : ResultRec :=
  ResultRec.mk "twitter" "alice" "hello" 100 none none [TopDim.mk 0 "dim0" 1]

/-- Modelled from the spec: the vocabulary artifacts (vectorizer.vocabulary_
and index_to_word.pkl) are produced by preprocess_data.py, which is not under
src/; load_model (lines 64-84) only unpickles them.  Spec section 3 defines
the vocabulary as a bijection between term strings and integer indices of
size n_terms, immutable once built; it is modelled as a duplicate-free list
of terms, word_to_index mapping a term to its position. -/
def word_to_index (terms : List String) (t : String) : Option Nat :=
  terms.indexOf? t

/-- Modelled from the spec: the inverse index-to-term mapping of the
vocabulary, see word_to_index. -/
def index_to_word (terms : List String) (i : Nat) : Option String :=
  terms.get? i

/-- One entry of the /search endpoint response (lines 284-293). -/
structure FinalRec where
  name : String
  documents : List ResultRec
  twitch_info : Option (List (String × String))
  image_path : String
  csv_data : Option (List (String × String))
deriving DecidableEq

/-- Lines 226-234: get_streamer_image_path always returns the first candidate
(the uppercase variant). -/
def get_streamer_image_path (streamer_name : String) : String :=
  "images/streamer_images/" ++ streamer_name.toUpper ++ ".jpg"

/-- Lines 272-282: group result records by streamer name in first-appearance
order, accumulating each streamer's document list.  (The accumulated
total_score is written but never read: the final sort recomputes its key from
the truncated document lists.) -/
def addToGroups (groups : List (String × List ResultRec)) (r : ResultRec) :
    List (String × List ResultRec) :=
  if groups.any (fun g => g.1 = r.name) then
    groups.map (fun g => if g.1 = r.name then (g.1, g.2 ++ [r]) else g)
  else groups ++ [(r.name, [r])]

/-- Lines 272-282: the grouping pass over the ranked results. -/
def groupByStreamer (results : List ResultRec) : List (String × List ResultRec) :=
  results.foldl addToGroups []

/-- Lines 296-299: the sort key of a grouped entry: the sum of the (at most
five) retained document scores, 0 for an empty list. -/
def finalSortKey (x : FinalRec) : ℚ :=
  if x.documents.isEmpty then 0 else (x.documents.map (fun d => d.sim_score)).sum

/-- Lines 262-302: the /search endpoint handler.  engineQuery stands for
search_engine.query; get_twitch_info and get_csv_streamer_info read the
module-level CSV table and are passed as lookup functions.  Python list.sort
with reverse=True is modelled by a stable insertion sort on the strictly-
greater relation. -/
def search_streamer
    (engineQuery : String → Nat → Except String (List ResultRec))
    (twitch_info : String → Option (List (String × String)))
    (csv_info : String → Option (List (String × String)))
    (nameParam : Option String) : Except String (List FinalRec) :=
  let query := nameParam.getD ""
  if query = "" then Except.ok []
  else
    match engineQuery query 50 with
    | Except.error msg => Except.error msg
    | Except.ok results =>
      let groups := groupByStreamer results
      let final_results := groups.map (fun g =>
        FinalRec.mk g.1 (g.2.take 5) (twitch_info g.1) (get_streamer_image_path g.1)
          (csv_info g.1))
      let sorted := List.insertionSort (fun a b => finalSortKey b < finalSortKey a)
        final_results
      Except.ok (sorted.take 10)

/-! ## Theorems -/

theorem getD_negL (xs : List ℚ) (i : Nat) : (negL xs).getD i 0 = -(xs.getD i 0) := by
  by_cases h : i < xs.length
  · rw [negL, List.getD_eq_getElem _ _ (by simpa using h), List.getD_eq_getElem _ _ h]
    simp
  · rw [List.getD_eq_default _ _ (by simpa [negL] using Nat.le_of_not_lt h),
      List.getD_eq_default _ _ (Nat.le_of_not_lt h)]
    simp

theorem length_negL (xs : List ℚ) : (negL xs).length = xs.length := by
  simp [negL]

theorem dotL_zero_left (xs ys : List ℚ) (h : ∀ v ∈ xs, v = 0) : dotL xs ys = 0 := by
  induction xs generalizing ys with
  | nil => simp [dotL]
  | cons a xs ih =>
    cases ys with
    | nil => simp [dotL]
    | cons b ys =>
      have ha : a = 0 := h a (List.mem_cons_self a xs)
      have := ih ys (fun v hv => h v (List.mem_cons_of_mem a hv))
      simp only [dotL, List.zipWith_cons_cons, List.sum_cons] at *
      rw [ha, this]; ring

theorem dotL_zero_right (xs ys : List ℚ) (h : ∀ v ∈ ys, v = 0) : dotL xs ys = 0 := by
  induction xs generalizing ys with
  | nil => simp [dotL]
  | cons a xs ih =>
    cases ys with
    | nil => simp [dotL]
    | cons b ys =>
      have hb : b = 0 := h b (List.mem_cons_self b ys)
      have := ih ys (fun v hv => h v (List.mem_cons_of_mem b hv))
      simp only [dotL, List.zipWith_cons_cons, List.sum_cons] at *
      rw [hb, this]; ring

theorem dotL_eq_sum_range (xs ys : List ℚ) (n : Nat) (hx : xs.length = n)
    (hy : ys.length = n) :
    dotL xs ys = (Finset.range n).sum (fun i => xs.getD i 0 * ys.getD i 0) := by
  induction n generalizing xs ys with
  | zero =>
    have : xs = [] := List.eq_nil_of_length_eq_zero hx
    subst this
    simp [dotL]
  | succ n ih =>
    cases xs with
    | nil => simp at hx
    | cons a xs =>
      cases ys with
      | nil => simp at hy
      | cons b ys =>
        simp only [List.length_cons, Nat.succ.injEq] at hx hy
        rw [Finset.sum_range_succ']
        simp only [dotL, List.zipWith_cons_cons, List.sum_cons, List.getD_cons_succ,
          List.getD_cons_zero]
        rw [← dotL, ih xs ys hx hy]
        ring

theorem sumSq_eq_sum_range (xs : List ℚ) (n : Nat) (hx : xs.length = n) :
    sumSq xs = (Finset.range n).sum (fun i => xs.getD i 0 * xs.getD i 0) := by
  induction n generalizing xs with
  | zero =>
    have : xs = [] := List.eq_nil_of_length_eq_zero hx
    subst this
    simp [sumSq]
  | succ n ih =>
    cases xs with
    | nil => simp at hx
    | cons a xs =>
      simp only [List.length_cons, Nat.succ.injEq] at hx
      rw [Finset.sum_range_succ']
      simp only [sumSq, List.map_cons, List.sum_cons, List.getD_cons_succ, List.getD_cons_zero]
      rw [← sumSq, ih xs hx]
      ring

theorem sumSq_nonneg (xs : List ℚ) : 0 ≤ sumSq xs := by
  induction xs with
  | nil => simp [sumSq]
  | cons a xs ih =>
    simp only [sumSq, List.map_cons, List.sum_cons] at *
    nlinarith [mul_self_nonneg a]

theorem sumSq_eq_zero_iff (xs : List ℚ) : sumSq xs = 0 ↔ ∀ v ∈ xs, v = 0 := by
  induction xs with
  | nil => simp [sumSq]
  | cons a xs ih =>
    simp only [sumSq, List.map_cons, List.sum_cons, List.mem_cons] at *
    constructor
    · intro h
      have ha2 : 0 ≤ a * a := mul_self_nonneg a
      have hs : 0 ≤ (xs.map (fun a => a * a)).sum := sumSq_nonneg xs
      have haz : a * a = 0 := by linarith
      have hxz : (xs.map (fun a => a * a)).sum = 0 := by linarith
      refine fun v hv => hv.elim (fun he => ?_) (fun hm => ih.mp hxz v hm)
      have : a = 0 := by nlinarith
      rw [he, this]
    · intro h
      have ha : a = 0 := h a (Or.inl rfl)
      have : (xs.map (fun a => a * a)).sum = 0 := ih.mpr (fun v hv => h v (Or.inr hv))
      rw [ha, this]; ring

/-- Cauchy-Schwarz for the list dot product: `(dotL xs ys)^2 ≤ sumSq xs * sumSq ys`
when the two vectors have the same length. -/
theorem dotL_sq_le (xs ys : List ℚ) (n : Nat) (hx : xs.length = n) (hy : ys.length = n) :
    dotL xs ys ^ 2 ≤ sumSq xs * sumSq ys := by
  rw [dotL_eq_sum_range xs ys n hx hy, sumSq_eq_sum_range xs n hx, sumSq_eq_sum_range ys n hy]
  have h := Finset.sum_mul_sq_le_sq_mul_sq (Finset.range n)
    (fun i => xs.getD i 0) (fun i => ys.getD i 0)
  simpa [pow_two] using h

theorem floor_le_pyRoundHalfEven (x : ℚ) : Int.floor x ≤ pyRoundHalfEven x := by
  unfold pyRoundHalfEven
  split
  · exact le_refl _
  · split
    · omega
    · split
      · exact le_refl _
      · omega

theorem pyRoundHalfEven_le_floor_add_one (x : ℚ) : pyRoundHalfEven x ≤ Int.floor x + 1 := by
  unfold pyRoundHalfEven
  split
  · omega
  · split
    · omega
    · split
      · omega
      · omega

theorem pyRoundHalfEven_intCast (n : ℤ) : pyRoundHalfEven (n : ℚ) = n := by
  unfold pyRoundHalfEven
  rw [Int.fract_intCast, Int.floor_intCast]
  norm_num

theorem pyRoundHalfEven_of_fract_lt {x : ℚ} (h : Int.fract x < 1/2) :
    pyRoundHalfEven x = Int.floor x := by
  unfold pyRoundHalfEven
  rw [if_pos h]

theorem pyRoundHalfEven_of_lt_fract {x : ℚ} (h : 1/2 < Int.fract x) :
    pyRoundHalfEven x = Int.floor x + 1 := by
  unfold pyRoundHalfEven
  rw [if_neg (by linarith), if_pos h]

theorem pyRoundHalfEven_mono {x y : ℚ} (h : x ≤ y) : pyRoundHalfEven x ≤ pyRoundHalfEven y := by
  rcases lt_or_eq_of_le (Int.floor_le_floor h) with hf | hf
  · calc pyRoundHalfEven x ≤ Int.floor x + 1 := pyRoundHalfEven_le_floor_add_one x
      _ ≤ Int.floor y := by omega
      _ ≤ pyRoundHalfEven y := floor_le_pyRoundHalfEven y
  · have hfr : Int.fract x ≤ Int.fract y := by
      unfold Int.fract
      rw [hf]
      linarith
    by_cases c1 : Int.fract x < 1/2
    · rw [pyRoundHalfEven_of_fract_lt c1, hf]
      exact floor_le_pyRoundHalfEven y
    · by_cases c2 : 1/2 < Int.fract x
      · have cy : 1/2 < Int.fract y := lt_of_lt_of_le c2 hfr
        rw [pyRoundHalfEven_of_lt_fract c2, pyRoundHalfEven_of_lt_fract cy, hf]
      · have cx : Int.fract x = 1/2 := le_antisymm (not_lt.mp c2) (not_lt.mp c1)
        by_cases cy : 1/2 < Int.fract y
        · rw [pyRoundHalfEven_of_lt_fract cy]
          calc pyRoundHalfEven x ≤ Int.floor x + 1 := pyRoundHalfEven_le_floor_add_one x
            _ = Int.floor y + 1 := by rw [hf]
        · have cy2 : Int.fract y = 1/2 := le_antisymm (not_lt.mp cy) (cx ▸ hfr)
          have hxy : x = y := by
            have hx : Int.fract x + (Int.floor x : ℚ) = x := Int.fract_add_floor x
            have hy : Int.fract y + (Int.floor y : ℚ) = y := Int.fract_add_floor y
            rw [← hx, ← hy, cx, cy2, hf]
          rw [hxy]

theorem pyRoundHalfEven_le_of_le {x : ℚ} {B : ℤ} (h : x ≤ (B : ℚ)) : pyRoundHalfEven x ≤ B := by
  have := pyRoundHalfEven_mono h
  rwa [pyRoundHalfEven_intCast] at this

theorem le_pyRoundHalfEven_of_le {x : ℚ} {B : ℤ} (h : (B : ℚ) ≤ x) : B ≤ pyRoundHalfEven x := by
  have := pyRoundHalfEven_mono h
  rwa [pyRoundHalfEven_intCast] at this

theorem pyRound2_mono {x y : ℚ} (h : x ≤ y) : pyRound2 x ≤ pyRound2 y := by
  unfold pyRound2
  have : pyRoundHalfEven (x * 100) ≤ pyRoundHalfEven (y * 100) :=
    pyRoundHalfEven_mono (by linarith)
  have hc : ((pyRoundHalfEven (x * 100) : ℤ) : ℚ) ≤ ((pyRoundHalfEven (y * 100) : ℤ) : ℚ) := by
    exact_mod_cast this
  linarith

theorem pyRound2_le_of_le {x : ℚ} {B : ℤ} (h : x ≤ (B : ℚ)) : pyRound2 x ≤ (B : ℚ) := by
  unfold pyRound2
  have : pyRoundHalfEven (x * 100) ≤ B * 100 := by
    apply pyRoundHalfEven_le_of_le
    push_cast
    linarith
  have hc : ((pyRoundHalfEven (x * 100) : ℤ) : ℚ) ≤ ((B * 100 : ℤ) : ℚ) := by exact_mod_cast this
  push_cast at hc
  linarith

theorem le_pyRound2_of_le {x : ℚ} {B : ℤ} (h : (B : ℚ) ≤ x) : (B : ℚ) ≤ pyRound2 x := by
  unfold pyRound2
  have : B * 100 ≤ pyRoundHalfEven (x * 100) := by
    apply le_pyRoundHalfEven_of_le
    push_cast
    linarith
  have hc : ((B * 100 : ℤ) : ℚ) ≤ ((pyRoundHalfEven (x * 100) : ℤ) : ℚ) := by exact_mod_cast this
  push_cast at hc
  linarith

theorem argsort_perm (x : List ℚ) : List.Perm (argsort x) (List.range x.length) :=
  List.perm_insertionSort _ _

theorem length_argsort (x : List ℚ) : (argsort x).length = x.length := by
  have := (argsort_perm x).length_eq
  simpa using this

theorem nodup_argsort (x : List ℚ) : (argsort x).Nodup :=
  (argsort_perm x).nodup_iff.mpr (List.nodup_range _)

theorem mem_argsort (x : List ℚ) {i : Nat} : i ∈ argsort x ↔ i < x.length := by
  rw [(argsort_perm x).mem_iff, List.mem_range]

theorem sorted_argsort (x : List ℚ) : (argsort x).Sorted (idxLe x) :=
  List.sorted_insertionSort _ _

theorem sorted_argsort_take (x : List ℚ) (n : Nat) :
    ((argsort x).take n).Sorted (idxLe x) :=
  List.Pairwise.sublist (List.take_sublist n (argsort x)) (sorted_argsort x)

theorem nodup_argsort_take (x : List ℚ) (n : Nat) : ((argsort x).take n).Nodup :=
  List.Nodup.sublist (List.take_sublist n (argsort x)) (nodup_argsort x)

theorem mem_of_mem_argsort_take (x : List ℚ) (n : Nat) {i : Nat}
    (h : i ∈ (argsort x).take n) : i < x.length :=
  (mem_argsort x).mp (List.mem_of_mem_take h)

/-- Every position selected in the first `n` places of `argsort` is at most
every position left out: the selection is a genuine bottom-`n` (equivalently,
on a negated array, top-`n`) of the values. -/
theorem argsort_take_dominates (x : List ℚ) (n : Nat) :
    ∀ i ∈ (argsort x).take n, ∀ j ∈ (argsort x).drop n, idxLe x i j := by
  have h : ((argsort x).take n ++ (argsort x).drop n).Pairwise (idxLe x) := by
    rw [List.take_append_drop]
    exact sorted_argsort x
  exact (List.pairwise_append.mp h).2.2

theorem length_argsort_take (x : List ℚ) (n : Nat) :
    ((argsort x).take n).length = min n x.length := by
  rw [List.length_take, length_argsort]

theorem length_similarities (e : OptimizedTFIDFSVDSearch) (qnorm : List ℚ) :
    (e.similarities qnorm).length = e.docs_compressed.length := by
  simp [OptimizedTFIDFSVDSearch.similarities]

theorem similarities_getD (e : OptimizedTFIDFSVDSearch) (qnorm : List ℚ) {i : Nat}
    (h : i < e.docs_compressed.length) :
    (e.similarities qnorm).getD i 0 = dotL (e.docs_compressed.getD i []) qnorm := by
  have h2 : i < (e.similarities qnorm).length := by rwa [length_similarities]
  rw [List.getD_eq_getElem _ _ h2, List.getD_eq_getElem _ _ h]
  simp [OptimizedTFIDFSVDSearch.similarities]

theorem length_top_indices (e : OptimizedTFIDFSVDSearch) (qnorm : List ℚ) (top_k : Nat) :
    (e.top_indices qnorm top_k).length = min top_k e.docs_compressed.length := by
  unfold OptimizedTFIDFSVDSearch.top_indices
  rw [List.length_take, length_argsort, length_negL, length_similarities]

theorem nodup_top_indices (e : OptimizedTFIDFSVDSearch) (qnorm : List ℚ) (top_k : Nat) :
    (e.top_indices qnorm top_k).Nodup :=
  nodup_argsort_take _ _

theorem mem_top_indices (e : OptimizedTFIDFSVDSearch) (qnorm : List ℚ) (top_k : Nat)
    {i : Nat} (h : i ∈ e.top_indices qnorm top_k) : i < e.docs_compressed.length := by
  have := mem_of_mem_argsort_take _ _ h
  rwa [length_negL, length_similarities] at this

theorem formatResult_ok (source streamer : String) (data : PyData) (sc : ℚ)
    (dims : List TopDim) (h : SourceDataOK source data) :
    ∃ r, formatResult source streamer data sc dims = Except.ok (some r) ∧
      r.source = source ∧ r.name = streamer ∧ r.sim_score = sc ∧ r.top_dimensions = dims := by
  rcases h with ⟨hs, h1, h2, h3⟩ | ⟨hs, h1⟩ | ⟨hs, h1⟩ | ⟨hs, h1⟩
  · subst hs
    obtain ⟨t, ht⟩ := Option.isSome_iff_exists.mp h1
    obtain ⟨sval, hsc⟩ := Option.isSome_iff_exists.mp h2
    obtain ⟨rid, hrid⟩ := Option.isSome_iff_exists.mp h3
    have hcalc : formatResult "reddit" streamer data sc dims =
        Except.ok (some ⟨"reddit", streamer, truncDoc t, sc, some sval, some rid, dims⟩) := by
      simp [formatResult, ht, hsc, hrid]
    exact ⟨_, hcalc, rfl, rfl, rfl, rfl⟩
  · subst hs
    cases data with
    | dict es => simp [PyData.isStr] at h1
    | str t =>
      have hcalc : formatResult "twitter" streamer (PyData.str t) sc dims =
          Except.ok (some ⟨"twitter", streamer, truncDoc t, sc, none, none, dims⟩) := by
        simp [formatResult]
      exact ⟨_, hcalc, rfl, rfl, rfl, rfl⟩
  · subst hs
    cases data with
    | str t =>
      have hcalc : formatResult "wiki" streamer (PyData.str t) sc dims =
          Except.ok (some ⟨"wiki", streamer, truncDoc t, sc, none, none, dims⟩) := by
        simp [formatResult]
      exact ⟨_, hcalc, rfl, rfl, rfl, rfl⟩
    | dict es =>
      rcases h1 with h1 | h1
      · simp [PyData.isStr] at h1
      · obtain ⟨t, ht⟩ := Option.isSome_iff_exists.mp h1
        have hcalc : formatResult "wiki" streamer (PyData.dict es) sc dims =
            Except.ok (some ⟨"wiki", streamer, truncDoc t, sc, none, none, dims⟩) := by
          simp [formatResult, ht]
        exact ⟨_, hcalc, rfl, rfl, rfl, rfl⟩
  · subst hs
    cases data with
    | str t => simp [PyData.isDict] at h1
    | dict es =>
      have hcalc : formatResult "details" streamer (PyData.dict es) sc dims =
          Except.ok (some ⟨"details", streamer,
            truncDoc (((PyData.dict es).get? "Description").getD ""), sc, none, none, dims⟩) := by
        simp [formatResult]
      exact ⟨_, hcalc, rfl, rfl, rfl, rfl⟩

theorem fmtDoc_fields (e : OptimizedTFIDFSVDSearch) (qnorm : List ℚ) (i : Nat)
    (hok : EntryOK (e.doc_lookup.getD i default)) :
    (e.fmtDoc qnorm i).source = (e.doc_lookup.getD i default).source ∧
    (e.fmtDoc qnorm i).name = (e.doc_lookup.getD i default).streamer ∧
    (e.fmtDoc qnorm i).sim_score = pyRound2 ((e.similarities qnorm).getD i 0 * 100) ∧
    (e.fmtDoc qnorm i).top_dimensions = e.top_dimensions qnorm i := by
  obtain ⟨r, hr, hrs, hrn, hrsc, hrd⟩ := formatResult_ok (e.doc_lookup.getD i default).source
    (e.doc_lookup.getD i default).streamer (e.doc_lookup.getD i default).data
    (pyRound2 ((e.similarities qnorm).getD i 0 * 100)) (e.top_dimensions qnorm i) hok
  have hfmt : e.fmtDoc qnorm i = r := by
    unfold OptimizedTFIDFSVDSearch.fmtDoc
    rw [hr]
  rw [hfmt]
  exact ⟨hrs, hrn, hrsc, hrd⟩

theorem formatLoop_eq_map (e : OptimizedTFIDFSVDSearch) (qnorm : List ℚ) (l : List Nat)
    (result : Option ResultRec)
    (hin : ∀ i ∈ l, i < e.docs_compressed.length)
    (hlk : e.doc_lookup.length = e.docs_compressed.length)
    (hul : e.u.length = e.docs_compressed.length)
    (hok : ∀ i ∈ l, EntryOK (e.doc_lookup.getD i default)) :
    formatLoop e qnorm l result = Except.ok (l.map (e.fmtDoc qnorm)) := by
  induction l generalizing result with
  | nil => rfl
  | cons i rest ih =>
    have h0 := hin i (List.mem_cons_self i rest)
    have h1 : i < e.doc_lookup.length := by omega
    have h3 : i < e.u.length := by omega
    have hokk := hok i (List.mem_cons_self i rest)
    have h2s : i < (e.similarities qnorm).length := by rwa [length_similarities]
    have g1 : e.doc_lookup.get? i = some (e.doc_lookup.getD i default) := by
      rw [List.get?_eq_get h1, List.getD_eq_get _ _ h1]
    have g2 : (e.similarities qnorm).get? i = some ((e.similarities qnorm).getD i 0) := by
      rw [List.get?_eq_get h2s, List.getD_eq_get _ _ h2s]
    obtain ⟨urow, g3⟩ : ∃ row, e.u.get? i = some row := by
      rw [List.get?_eq_get h3]
      exact ⟨_, rfl⟩
    obtain ⟨r, hr, hrs, hrn, hrsc, hrd⟩ := formatResult_ok (e.doc_lookup.getD i default).source
      (e.doc_lookup.getD i default).streamer (e.doc_lookup.getD i default).data
      (pyRound2 ((e.similarities qnorm).getD i 0 * 100)) (e.top_dimensions qnorm i) hokk
    have hfmt : e.fmtDoc qnorm i = r := by
      unfold OptimizedTFIDFSVDSearch.fmtDoc
      rw [hr]
    have hrec := ih (some r) (fun j hj => hin j (List.mem_cons_of_mem i hj))
      (fun j hj => hok j (List.mem_cons_of_mem i hj))
    simp only [formatLoop, g1, g2, g3, hr, hrec, List.map_cons, hfmt]

theorem truncDoc_of_short {text : String} (h : ¬ text.length > 150) : truncDoc text = text := by
  unfold truncDoc
  rw [if_neg h]

theorem pyRound2_zero : pyRound2 0 = 0 := by
  norm_num [pyRound2, pyRoundHalfEven]

theorem argsort_pair_eq (x : List ℚ) (h : x.length = 2) (hle : idxLe x 0 1) :
    argsort x = [0, 1] := by
  unfold argsort
  rw [h, show List.range 2 = [0, 1] from rfl]
  simp [List.insertionSort, List.orderedInsert, hle]

theorem argsort_singleton (x : List ℚ) (h : x.length = 1) : argsort x = [0] := by
  unfold argsort
  rw [h, show List.range 1 = [0] from rfl]
  simp [List.insertionSort, List.orderedInsert]

theorem engineW_similarities_eval : engineW.similarities [0] = [0, 0] := by
  norm_num [OptimizedTFIDFSVDSearch.similarities, engineW, dotL]

theorem engineW_top_indices_eval : engineW.top_indices [0] 5 = [0, 1] := by
  unfold OptimizedTFIDFSVDSearch.top_indices
  rw [engineW_similarities_eval, show negL [0, 0] = [0, 0] from by norm_num [negL],
    argsort_pair_eq [0, 0] rfl (Or.inr ⟨rfl, by omega⟩)]
  rfl

theorem engineW_top_dimensions_zero (i : Nat) (hi : i < 2) :
    engineW.top_dimensions [0] i = [TopDim.mk 0 "dim0" 0] := by
  interval_cases i <;>
  · rw [OptimizedTFIDFSVDSearch.top_dimensions,
      show engineW.dimension_contributions [0] _ = [0] from by
        norm_num [OptimizedTFIDFSVDSearch.dimension_contributions, engineW],
      show negL [0] = [0] from by norm_num [negL], argsort_singleton [0] rfl]
    norm_num [engineW]

theorem engineW_eval : engineW.queryOnNormalized [0] 5 = Except.ok [recW0, recW1] := by
  have htr1 : truncDoc "hello" = "hello" := truncDoc_of_short (by decide)
  have htr2 : truncDoc "world" = "world" := truncDoc_of_short (by decide)
  have htd0 := engineW_top_dimensions_zero 0 (by omega)
  have htd1 := engineW_top_dimensions_zero 1 (by omega)
  have hne : ("twitter" = "reddit") = False := eq_false (by decide)
  unfold OptimizedTFIDFSVDSearch.queryOnNormalized
  rw [engineW_top_indices_eval]
  simp only [formatLoop, engineW_similarities_eval, htd0, htd1]
  norm_num [formatResult, engineW, htr1, htr2, pyRound2_zero, recW0, recW1, PyData.get?, hne]

theorem pyRound2_one_hundred : pyRound2 100 = 100 := by
  norm_num [pyRound2, pyRoundHalfEven, Int.fract]

theorem engineBugDup_similarities_eval : engineBugDup.similarities [1] = [1, 1] := by
  norm_num [OptimizedTFIDFSVDSearch.similarities, engineBugDup, dotL]

theorem engineBugDup_top_indices_eval : engineBugDup.top_indices [1] 10 = [0, 1] := by
  unfold OptimizedTFIDFSVDSearch.top_indices
  rw [engineBugDup_similarities_eval, show negL [1, 1] = [-1, -1] from by norm_num [negL],
    argsort_pair_eq [-1, -1] rfl (Or.inr ⟨rfl, by omega⟩)]
  rfl

theorem engineBugDup_top_dimensions_eval (i : Nat) (hi : i < 2) :
    engineBugDup.top_dimensions [1] i = [TopDim.mk 0 "dim0" 1] := by
  interval_cases i <;>
  · rw [OptimizedTFIDFSVDSearch.top_dimensions,
      show engineBugDup.dimension_contributions [1] _ = [1] from by
        norm_num [OptimizedTFIDFSVDSearch.dimension_contributions, engineBugDup],
      show negL [1] = [-1] from by norm_num [negL], argsort_singleton [-1] rfl]
    norm_num [engineBugDup]

theorem engineBugDup_eval :
    engineBugDup.queryOnNormalized [1] 10 = Except.ok [recDup, recDup] := by
  have htr1 : truncDoc "hello" = "hello" := truncDoc_of_short (by decide)
  have htd0 := engineBugDup_top_dimensions_eval 0 (by omega)
  have hne1 : ("twitter" = "reddit") = False := eq_false (by decide)
  have hne2 : ("instagram" = "reddit") = False := eq_false (by decide)
  have hne3 : ("instagram" = "twitter") = False := eq_false (by decide)
  have hne4 : ("instagram" = "wiki") = False := eq_false (by decide)
  have hne5 : ("instagram" = "details") = False := eq_false (by decide)
  unfold OptimizedTFIDFSVDSearch.queryOnNormalized
  rw [engineBugDup_top_indices_eval]
  simp only [formatLoop, engineBugDup_similarities_eval, htd0]
  norm_num [formatResult, engineBugDup, htr1, pyRound2_one_hundred, recDup, PyData.get?,
    hne1, hne2, hne3, hne4, hne5]

theorem engineBugFirst_similarities_eval : engineBugFirst.similarities [1] = [1, 1] := by
  norm_num [OptimizedTFIDFSVDSearch.similarities, engineBugFirst, dotL]

theorem engineBugFirst_top_indices_eval : engineBugFirst.top_indices [1] 10 = [0, 1] := by
  unfold OptimizedTFIDFSVDSearch.top_indices
  rw [engineBugFirst_similarities_eval, show negL [1, 1] = [-1, -1] from by norm_num [negL],
    argsort_pair_eq [-1, -1] rfl (Or.inr ⟨rfl, by omega⟩)]
  rfl

theorem engineBugFirst_eval :
    engineBugFirst.queryOnNormalized [1] 10 = Except.error "UnboundLocalError" := by
  have hne2 : ("instagram" = "reddit") = False := eq_false (by decide)
  have hne3 : ("instagram" = "twitter") = False := eq_false (by decide)
  have hne4 : ("instagram" = "wiki") = False := eq_false (by decide)
  have hne5 : ("instagram" = "details") = False := eq_false (by decide)
  unfold OptimizedTFIDFSVDSearch.queryOnNormalized
  rw [engineBugFirst_top_indices_eval]
  simp only [formatLoop, engineBugFirst_similarities_eval]
  norm_num [formatResult, engineBugFirst, hne2, hne3, hne4, hne5, PyData.get?]

/-- Claim C2 (code_bug): a document whose source tag lies outside the closed
set is not silently omitted with other records unaffected.  Evaluating the
query pipeline: in engineBugDup the document with source "instagram" is
ranked second, and the loop appends the previous document's record a second
time (a duplicate, because results.append(result) reads the stale loop
variable); in engineBugFirst the "instagram" document is ranked first and the
query raises UnboundLocalError instead of omitting it. -/
theorem claim_c2_unrecognized_source_not_omitted :
    engineBugDup.queryOnNormalized [1] 10 = Except.ok [recDup, recDup] ∧
    engineBugFirst.queryOnNormalized [1] 10 = Except.error "UnboundLocalError" :=
  ⟨engineBugDup_eval, engineBugFirst_eval⟩

/-- Claim C1 (counterexample): it is not the case that a query with no
vocabulary overlap makes the query operation fail with a signalled no-match
condition: on engineW, whose vectorizer returns the zero tf-idf row for every
text, query returns a ranked result list (Except.ok), not an error. -/
theorem claim_c1_counterexample :
    ¬ (∀ out, QueryResult engineW "streamer query" 5 out →
        ∃ msg, out = Except.error msg) := by
  intro h
  have hw : engineW.weighted_query_vec "streamer query" = [0] := by
    norm_num [OptimizedTFIDFSVDSearch.weighted_query_vec, OptimizedTFIDFSVDSearch.query_vec,
      engineW, dotL]
  have hq : QueryResult engineW "streamer query" 5 (Except.ok [recW0, recW1]) :=
    ⟨[0], 0, Or.inl ⟨by rw [hw]; norm_num [sumSq], hw.symm⟩, engineW_eval.symm⟩
  obtain ⟨msg, hmsg⟩ := h _ hq
  simp at hmsg

theorem zipWith_mul_all_zero_left (xs ys : List ℚ) (h : ∀ a ∈ xs, a = 0) :
    ∀ v ∈ List.zipWith (fun a b => a * b) xs ys, v = 0 := by
  induction xs generalizing ys with
  | nil => simp
  | cons a xs ih =>
    cases ys with
    | nil => simp
    | cons b ys =>
      intro v hv
      rcases List.mem_cons.mp hv with rfl | hv
      · rw [h a (List.mem_cons_self a xs)]
        ring
      · exact ih ys (fun x hx => h x (List.mem_cons_of_mem a hx)) v hv

theorem getD_zero_of_all_zero (xs : List ℚ) (h : ∀ v ∈ xs, v = 0) (i : Nat) :
    xs.getD i 0 = 0 := by
  by_cases hi : i < xs.length
  · rw [List.getD_eq_getElem _ _ hi]
    exact h _ (List.getElem_mem _)
  · exact List.getD_eq_default _ _ (Nat.le_of_not_lt hi)

theorem entryOK_getD (e : OptimizedTFIDFSVDSearch) (hok : ∀ d ∈ e.doc_lookup, EntryOK d)
    {i : Nat} (hi : i < e.doc_lookup.length) : EntryOK (e.doc_lookup.getD i default) := by
  rw [List.getD_eq_getElem _ _ hi]
  exact hok _ (List.getElem_mem _)

/-- Claim C1 (amended): for every query whose tf-idf row has no vocabulary
overlap, the engine performs no zero-norm check and does not fail: sklearn
normalize leaves the zero weighted vector unchanged (no NaN), every
similarity is exactly zero, and a ranked list of min(top_k, n_docs)
zero-score records is returned (under shape consistency and recognized
source tags). -/
theorem claim_c1_amended (e : OptimizedTFIDFSVDSearch) (text : String)
    (top_k n_docs k : Nat) (out : Except String (List ResultRec))
    (hsh : ArtifactShapes e n_docs k)
    (hok : ∀ d ∈ e.doc_lookup, EntryOK d)
    (hz : ∀ v ∈ e.vectorizer text, v = 0)
    (hq : QueryResult e text top_k out) :
    ∃ rs, out = Except.ok rs ∧ rs.length = min top_k n_docs ∧
      ∀ r ∈ rs, r.sim_score = 0 := by
  obtain ⟨qnorm, c, hn, hout⟩ := hq
  have hqv : ∀ a ∈ e.query_vec text, a = 0 := by
    intro a ha
    obtain ⟨row, hrow, rfl⟩ := List.mem_map.mp ha
    exact dotL_zero_left _ _ hz
  have hwz : ∀ v ∈ e.weighted_query_vec text, v = 0 :=
    zipWith_mul_all_zero_left _ _ hqv
  have hsz : sumSq (e.weighted_query_vec text) = 0 := (sumSq_eq_zero_iff _).mpr hwz
  have hqn : ∀ v ∈ qnorm, v = 0 := by
    rcases hn with ⟨h0, rfl⟩ | ⟨hc, hcc, rfl⟩
    · exact hwz
    · exfalso
      rw [hsz] at hcc
      have : c = 0 := mul_self_eq_zero.mp hcc
      linarith
  have hsims : ∀ v ∈ e.similarities qnorm, v = 0 := by
    intro v hv
    obtain ⟨row, hrow, rfl⟩ := List.mem_map.mp hv
    exact dotL_zero_right _ _ hqn
  have hlk : e.doc_lookup.length = e.docs_compressed.length :=
    hsh.hlookup.trans hsh.hdocs.symm
  have hul : e.u.length = e.docs_compressed.length := hsh.hu.trans hsh.hdocs.symm
  have hinlk : ∀ i ∈ e.top_indices qnorm top_k, i < e.doc_lookup.length := by
    intro i hi
    rw [hlk]
    exact mem_top_indices e qnorm top_k hi
  refine ⟨(e.top_indices qnorm top_k).map (e.fmtDoc qnorm), ?_, ?_, ?_⟩
  · rw [hout]
    exact formatLoop_eq_map e qnorm _ none (fun i hi => mem_top_indices e qnorm top_k hi)
      hlk hul (fun i hi => entryOK_getD e hok (hinlk i hi))
  · rw [List.length_map, length_top_indices, hsh.hdocs]
  · intro r hr
    obtain ⟨i, hi, rfl⟩ := List.mem_map.mp hr
    obtain ⟨_, _, hsc, _⟩ := fmtDoc_fields e qnorm i (entryOK_getD e hok (hinlk i hi))
    rw [hsc, getD_zero_of_all_zero _ hsims i]
    norm_num [pyRound2_zero]

/-- Witness for claim C1 (amended) at the concrete engine engineW. -/
theorem claim_c1_amended_witness :
    ∃ rs, (Except.ok [recW0, recW1] : Except String (List ResultRec)) = Except.ok rs ∧
      rs.length = min 5 2 ∧ ∀ r ∈ rs, r.sim_score = 0 := by
  have hw : engineW.weighted_query_vec "streamer query" = [0] := by
    norm_num [OptimizedTFIDFSVDSearch.weighted_query_vec, OptimizedTFIDFSVDSearch.query_vec,
      engineW, dotL]
  exact claim_c1_amended engineW "streamer query" 5 2 1 (Except.ok [recW0, recW1])
    ⟨rfl, rfl, rfl, by decide, rfl, rfl, rfl⟩ (by decide) (by decide)
    ⟨[0], 0, Or.inl ⟨by rw [hw]; norm_num [sumSq], hw.symm⟩, engineW_eval.symm⟩

/-- Claim C4: for every query (every normalized query row) with vocabulary
overlap and every requested top_k, under consistent artifact shapes and
recognized source tags, query returns exactly min(top_k, n_docs) result
records, one per entry of a duplicate-free list of document ordinals; in
particular top_k > n_docs yields all n_docs documents and no error. -/
theorem claim_c4_result_count (e : OptimizedTFIDFSVDSearch) (qnorm : List ℚ)
    (top_k n_docs k : Nat)
    (hsh : ArtifactShapes e n_docs k)
    (hok : ∀ d ∈ e.doc_lookup, EntryOK d)
    (hov : ∃ v ∈ qnorm, v ≠ 0) :
    e.queryOnNormalized qnorm top_k =
      Except.ok ((e.top_indices qnorm top_k).map (e.fmtDoc qnorm)) ∧
    ((e.top_indices qnorm top_k).map (e.fmtDoc qnorm)).length = min top_k n_docs ∧
    (e.top_indices qnorm top_k).Nodup := by
  have hlk : e.doc_lookup.length = e.docs_compressed.length :=
    hsh.hlookup.trans hsh.hdocs.symm
  have hul : e.u.length = e.docs_compressed.length := hsh.hu.trans hsh.hdocs.symm
  refine ⟨?_, ?_, nodup_top_indices e qnorm top_k⟩
  · exact formatLoop_eq_map e qnorm _ none (fun i hi => mem_top_indices e qnorm top_k hi)
      hlk hul
      (fun i hi => entryOK_getD e hok (by rw [hlk]; exact mem_top_indices e qnorm top_k hi))
  · rw [List.length_map, length_top_indices, hsh.hdocs]

/-- Witness for claim C4 at the concrete engine engineW with top_k = 5 and
n_docs = 2. -/
theorem claim_c4_result_count_witness :
    engineW.queryOnNormalized [1] 5 =
      Except.ok ((engineW.top_indices [1] 5).map (engineW.fmtDoc [1])) ∧
    ((engineW.top_indices [1] 5).map (engineW.fmtDoc [1])).length = min 5 2 ∧
    (engineW.top_indices [1] 5).Nodup :=
  claim_c4_result_count engineW [1] 5 2 1 ⟨rfl, rfl, rfl, by decide, rfl, rfl, rfl⟩
    (by decide) ⟨1, by simp, by norm_num⟩

/-- Selection properties of the pattern np.argsort(-v)[:n]: it selects
min(n, length) distinct in-range positions, ordered by non-increasing value,
and every selected position's value dominates every unselected one
(signed comparison). -/
theorem top_select_props (v : List ℚ) (n : Nat) :
    ((argsort (negL v)).take n).length = min n v.length ∧
    ((argsort (negL v)).take n).Nodup ∧
    (∀ d ∈ (argsort (negL v)).take n, d < v.length) ∧
    List.Pairwise (fun a b => v.getD b 0 ≤ v.getD a 0) ((argsort (negL v)).take n) ∧
    (∀ d ∈ (argsort (negL v)).take n, ∀ j, j < v.length → j ∉ (argsort (negL v)).take n →
      v.getD j 0 ≤ v.getD d 0) := by
  refine ⟨?_, nodup_argsort_take _ _, ?_, ?_, ?_⟩
  · rw [length_argsort_take, length_negL]
  · intro d hd
    have := mem_of_mem_argsort_take _ _ hd
    rwa [length_negL] at this
  · refine List.Pairwise.imp ?_ (sorted_argsort_take (negL v) n)
    intro a b hab
    rcases hab with h | ⟨h, _⟩
    · rw [getD_negL, getD_negL] at h
      linarith
    · rw [getD_negL, getD_negL] at h
      linarith
  · intro d hd j hj hjn
    have hjmem : j ∈ argsort (negL v) := by
      rw [mem_argsort, length_negL]
      exact hj
    rw [← List.take_append_drop n (argsort (negL v))] at hjmem
    rcases List.mem_append.mp hjmem with h | h
    · exact absurd h hjn
    · have := argsort_take_dominates (negL v) n d hd j h
      rcases this with hlt | ⟨hEq, _⟩
      · rw [getD_negL, getD_negL] at hlt
        linarith
      · rw [getD_negL, getD_negL] at hEq
        linarith

theorem u_row_length (e : OptimizedTFIDFSVDSearch) (n_docs k : Nat)
    (hsh : ArtifactShapes e n_docs k) {i : Nat} (hi : i < e.u.length) :
    (e.u.getD i []).length = k := by
  rw [List.getD_eq_getElem _ _ hi]
  exact hsh.hurows _ (List.getElem_mem _)

/-- Claim C5: for every returned document, the reported top_dimensions list
is built from the 3 dimensions of highest signed contribution among all k,
where the contribution vector is the elementwise product of the un-normalized
row U[doc] with the normalized query row; each entry carries the dimension
index, its precomputed label and its contribution value. -/
theorem claim_c5_top_dimensions (e : OptimizedTFIDFSVDSearch) (qnorm : List ℚ)
    (top_k n_docs k : Nat)
    (hsh : ArtifactShapes e n_docs k)
    (hok : ∀ d ∈ e.doc_lookup, EntryOK d)
    (hqk : qnorm.length = k) :
    e.queryOnNormalized qnorm top_k =
      Except.ok ((e.top_indices qnorm top_k).map (e.fmtDoc qnorm)) ∧
    ∀ i ∈ e.top_indices qnorm top_k,
      (e.dimension_contributions qnorm i).length = k ∧
      (e.fmtDoc qnorm i).top_dimensions =
        ((argsort (negL (e.dimension_contributions qnorm i))).take 3).map
          (fun dim_idx => TopDim.mk dim_idx (e.dimension_labels.getD dim_idx "")
            ((e.dimension_contributions qnorm i).getD dim_idx 0)) ∧
      ((argsort (negL (e.dimension_contributions qnorm i))).take 3).length = min 3 k ∧
      ((argsort (negL (e.dimension_contributions qnorm i))).take 3).Nodup ∧
      (∀ d ∈ (argsort (negL (e.dimension_contributions qnorm i))).take 3,
        ∀ j, j < k → j ∉ (argsort (negL (e.dimension_contributions qnorm i))).take 3 →
          (e.dimension_contributions qnorm i).getD j 0 ≤
            (e.dimension_contributions qnorm i).getD d 0) := by
  have hlk : e.doc_lookup.length = e.docs_compressed.length :=
    hsh.hlookup.trans hsh.hdocs.symm
  have hul : e.u.length = e.docs_compressed.length := hsh.hu.trans hsh.hdocs.symm
  have hout := formatLoop_eq_map e qnorm (e.top_indices qnorm top_k) none
    (fun i hi => mem_top_indices e qnorm top_k hi) hlk hul
    (fun i hi => entryOK_getD e hok (by rw [hlk]; exact mem_top_indices e qnorm top_k hi))
  refine ⟨hout, ?_⟩
  intro i hi
  have hiu : i < e.u.length := by
    rw [hul]
    exact mem_top_indices e qnorm top_k hi
  have hclen : (e.dimension_contributions qnorm i).length = k := by
    unfold OptimizedTFIDFSVDSearch.dimension_contributions
    rw [List.length_zipWith, u_row_length e n_docs k hsh hiu, hqk, Nat.min_self]
  have hprops := top_select_props (e.dimension_contributions qnorm i) 3
  have hid : i < e.doc_lookup.length := by
    rw [hlk]
    exact mem_top_indices e qnorm top_k hi
  have htd := (fmtDoc_fields e qnorm i (entryOK_getD e hok hid)).2.2.2
  refine ⟨hclen, ?_, ?_, hprops.2.1, ?_⟩
  · rw [htd]
    rfl
  · rw [hprops.1, hclen]
  · intro d hd j hj hjn
    exact hprops.2.2.2.2 d hd j (by rw [hclen]; exact hj) hjn

/-- Witness for claim C5 at engineW. -/
theorem claim_c5_top_dimensions_witness :
    engineW.queryOnNormalized [1] 5 =
      Except.ok ((engineW.top_indices [1] 5).map (engineW.fmtDoc [1])) ∧
    ∀ i ∈ engineW.top_indices [1] 5,
      (engineW.dimension_contributions [1] i).length = 1 ∧
      (engineW.fmtDoc [1] i).top_dimensions =
        ((argsort (negL (engineW.dimension_contributions [1] i))).take 3).map
          (fun dim_idx => TopDim.mk dim_idx (engineW.dimension_labels.getD dim_idx "")
            ((engineW.dimension_contributions [1] i).getD dim_idx 0)) ∧
      ((argsort (negL (engineW.dimension_contributions [1] i))).take 3).length = min 3 1 ∧
      ((argsort (negL (engineW.dimension_contributions [1] i))).take 3).Nodup ∧
      (∀ d ∈ (argsort (negL (engineW.dimension_contributions [1] i))).take 3,
        ∀ j, j < 1 → j ∉ (argsort (negL (engineW.dimension_contributions [1] i))).take 3 →
          (engineW.dimension_contributions [1] i).getD j 0 ≤
            (engineW.dimension_contributions [1] i).getD d 0) :=
  claim_c5_top_dimensions engineW [1] 5 2 1 ⟨rfl, rfl, rfl, by decide, rfl, rfl, rfl⟩
    (by decide) rfl

/-- Claim C6: when every compressed document row and the normalized query row
are unit-norm, each reported similarity equals the raw cosine similarity
scaled by 100 and rounded to 2 decimals, and lies within [-100, 100] (stated
with the 1e-6 tolerance of the claim; the proof gives the exact bound). -/
theorem claim_c6_similarity_scale_bounds (e : OptimizedTFIDFSVDSearch) (qnorm : List ℚ)
    (top_k n_docs k : Nat)
    (hsh : ArtifactShapes e n_docs k)
    (hok : ∀ d ∈ e.doc_lookup, EntryOK d)
    (hrowlen : ∀ row ∈ e.docs_compressed, row.length = k)
    (hunit : ∀ row ∈ e.docs_compressed, sumSq row = 1)
    (hq1 : sumSq qnorm = 1) (hqk : qnorm.length = k) :
    e.queryOnNormalized qnorm top_k =
      Except.ok ((e.top_indices qnorm top_k).map (e.fmtDoc qnorm)) ∧
    ∀ i ∈ e.top_indices qnorm top_k,
      (e.fmtDoc qnorm i).sim_score =
        pyRound2 (dotL (e.docs_compressed.getD i []) qnorm * 100) ∧
      -(100 + 1/1000000) ≤ (e.fmtDoc qnorm i).sim_score ∧
      (e.fmtDoc qnorm i).sim_score ≤ 100 + 1/1000000 := by
  have hlk : e.doc_lookup.length = e.docs_compressed.length :=
    hsh.hlookup.trans hsh.hdocs.symm
  have hul : e.u.length = e.docs_compressed.length := hsh.hu.trans hsh.hdocs.symm
  have hout := formatLoop_eq_map e qnorm (e.top_indices qnorm top_k) none
    (fun i hi => mem_top_indices e qnorm top_k hi) hlk hul
    (fun i hi => entryOK_getD e hok (by rw [hlk]; exact mem_top_indices e qnorm top_k hi))
  refine ⟨hout, ?_⟩
  intro i hi
  have hid : i < e.docs_compressed.length := mem_top_indices e qnorm top_k hi
  have hrow : e.docs_compressed.getD i [] ∈ e.docs_compressed := by
    rw [List.getD_eq_getElem _ _ hid]
    exact List.getElem_mem _
  have hsc : (e.fmtDoc qnorm i).sim_score =
      pyRound2 ((e.similarities qnorm).getD i 0 * 100) :=
    (fmtDoc_fields e qnorm i (entryOK_getD e hok (by rw [hlk]; exact hid))).2.2.1
  have hval : (e.similarities qnorm).getD i 0 = dotL (e.docs_compressed.getD i []) qnorm :=
    similarities_getD e qnorm hid
  have hcs : dotL (e.docs_compressed.getD i []) qnorm ^ 2 ≤ 1 := by
    have := dotL_sq_le (e.docs_compressed.getD i []) qnorm k (hrowlen _ hrow) hqk
    rw [hunit _ hrow, hq1] at this
    linarith
  have hb1 : -1 ≤ dotL (e.docs_compressed.getD i []) qnorm := by
    nlinarith [sq_nonneg (dotL (e.docs_compressed.getD i []) qnorm + 1)]
  have hb2 : dotL (e.docs_compressed.getD i []) qnorm ≤ 1 := by
    nlinarith [sq_nonneg (dotL (e.docs_compressed.getD i []) qnorm - 1)]
  have hup : pyRound2 (dotL (e.docs_compressed.getD i []) qnorm * 100) ≤ ((100 : ℤ) : ℚ) :=
    pyRound2_le_of_le (by push_cast; linarith)
  have hlo : ((-100 : ℤ) : ℚ) ≤ pyRound2 (dotL (e.docs_compressed.getD i []) qnorm * 100) :=
    le_pyRound2_of_le (by push_cast; linarith)
  push_cast at hup hlo
  refine ⟨by rw [hsc, hval], ?_, ?_⟩
  · rw [hsc, hval]
    linarith
  · rw [hsc, hval]
    linarith

/-- Witness for claim C6 at engineW (whose compressed rows and the query row
[1] are unit-norm). -/
theorem claim_c6_similarity_scale_bounds_witness :
    engineW.queryOnNormalized [1] 5 =
      Except.ok ((engineW.top_indices [1] 5).map (engineW.fmtDoc [1])) ∧
    ∀ i ∈ engineW.top_indices [1] 5,
      (engineW.fmtDoc [1] i).sim_score =
        pyRound2 (dotL (engineW.docs_compressed.getD i []) [1] * 100) ∧
      -(100 + 1/1000000) ≤ (engineW.fmtDoc [1] i).sim_score ∧
      (engineW.fmtDoc [1] i).sim_score ≤ 100 + 1/1000000 :=
  claim_c6_similarity_scale_bounds engineW [1] 5 2 1
    ⟨rfl, rfl, rfl, by decide, rfl, rfl, rfl⟩ (by decide)
    (by
      intro row hr
      simp only [engineW, List.mem_cons, List.not_mem_nil, or_false] at hr
      rcases hr with rfl | rfl <;> norm_num)
    (by
      intro row hr
      simp only [engineW, List.mem_cons, List.not_mem_nil, or_false] at hr
      rcases hr with rfl | rfl <;> norm_num [sumSq])
    (by norm_num [sumSq]) rfl

/-- Claim C7: analyze_svd_components returns exactly k entries in ascending
dimension order; entry i carries the dimension index i, the top n terms of
row i of Vt (a duplicate-free selection of min(n, row-length) term positions
sorted by non-increasing loading and dominating all unselected positions),
and dimension i's precomputed label. -/
theorem claim_c7_analyze_components (e : OptimizedTFIDFSVDSearch) (n_terms k : Nat)
    (hvt : e.vt.length = k) (hlab : e.dimension_labels.length = k) :
    (e.analyze_svd_components n_terms).length = k ∧
    ∀ i, i < k →
      (e.analyze_svd_components n_terms).get? i =
        some (i, ((argsort (negL (e.vt.getD i []))).take n_terms).map
            (fun idx => e.index_to_word.getD idx ""),
          e.dimension_labels.getD i "") ∧
      ((argsort (negL (e.vt.getD i []))).take n_terms).length =
        min n_terms (e.vt.getD i []).length ∧
      ((argsort (negL (e.vt.getD i []))).take n_terms).Nodup ∧
      List.Pairwise (fun a b => (e.vt.getD i []).getD b 0 ≤ (e.vt.getD i []).getD a 0)
        ((argsort (negL (e.vt.getD i []))).take n_terms) ∧
      (∀ d ∈ (argsort (negL (e.vt.getD i []))).take n_terms,
        ∀ j, j < (e.vt.getD i []).length →
          j ∉ (argsort (negL (e.vt.getD i []))).take n_terms →
          (e.vt.getD i []).getD j 0 ≤ (e.vt.getD i []).getD d 0) := by
  constructor
  · simp [OptimizedTFIDFSVDSearch.analyze_svd_components, hlab]
  · intro i hi
    have hprops := top_select_props (e.vt.getD i []) n_terms
    refine ⟨?_, hprops.1, hprops.2.1, hprops.2.2.2.1, hprops.2.2.2.2⟩
    unfold OptimizedTFIDFSVDSearch.analyze_svd_components
    rw [List.get?_map, List.get?_range (by rw [hlab]; exact hi)]
    rfl

/-- Witness for claim C7 at engineW with n_terms = 5 and k = 1. -/
theorem claim_c7_analyze_components_witness :
    (engineW.analyze_svd_components 5).length = 1 ∧
    ∀ i, i < 1 →
      (engineW.analyze_svd_components 5).get? i =
        some (i, ((argsort (negL (engineW.vt.getD i []))).take 5).map
            (fun idx => engineW.index_to_word.getD idx ""),
          engineW.dimension_labels.getD i "") ∧
      ((argsort (negL (engineW.vt.getD i []))).take 5).length =
        min 5 (engineW.vt.getD i []).length ∧
      ((argsort (negL (engineW.vt.getD i []))).take 5).Nodup ∧
      List.Pairwise
        (fun a b => (engineW.vt.getD i []).getD b 0 ≤ (engineW.vt.getD i []).getD a 0)
        ((argsort (negL (engineW.vt.getD i []))).take 5) ∧
      (∀ d ∈ (argsort (negL (engineW.vt.getD i []))).take 5,
        ∀ j, j < (engineW.vt.getD i []).length →
          j ∉ (argsort (negL (engineW.vt.getD i []))).take 5 →
          (engineW.vt.getD i []).getD j 0 ≤ (engineW.vt.getD i []).getD d 0) :=
  claim_c7_analyze_components engineW 5 1 rfl rfl

/-- Claim C8: the query operation is deterministic: for the same loaded
artifacts, the same query text and the same top_k, any two outputs of the
query method are equal (the normalization step has a unique solution, and
everything after it is a function; wall-clock readings only feed the printed
progress messages, which are not part of the returned value). -/
theorem claim_c8_deterministic (e : OptimizedTFIDFSVDSearch) (text : String) (top_k : Nat)
    (out1 out2 : Except String (List ResultRec))
    (h1 : QueryResult e text top_k out1) (h2 : QueryResult e text top_k out2) :
    out1 = out2 := by
  obtain ⟨q1, c1, hn1, ho1⟩ := h1
  obtain ⟨q2, c2, hn2, ho2⟩ := h2
  have hq : q1 = q2 := by
    rcases hn1 with ⟨hz1, rfl⟩ | ⟨hc1, hcc1, rfl⟩ <;>
      rcases hn2 with ⟨hz2, rfl⟩ | ⟨hc2, hcc2, rfl⟩
    · rfl
    · exfalso
      rw [hz1] at hcc2
      have : c2 = 0 := mul_self_eq_zero.mp hcc2
      linarith
    · exfalso
      rw [hz2] at hcc1
      have : c1 = 0 := mul_self_eq_zero.mp hcc1
      linarith
    · have hcs : c1 = c2 := by
        have h12 : c1 * c1 = c2 * c2 := by rw [hcc1, hcc2]
        rcases mul_self_eq_mul_self_iff.mp h12 with h | h
        · exact h
        · linarith
      rw [hcs]
  rw [ho1, ho2, hq]

/-- Witness for claim C8 at engineW, whose zero-overlap query admits the
explicitly constructible normalization. -/
theorem claim_c8_deterministic_witness :
    (Except.ok [recW0, recW1] : Except String (List ResultRec)) = Except.ok [recW0, recW1] := by
  have hw : engineW.weighted_query_vec "streamer query" = [0] := by
    norm_num [OptimizedTFIDFSVDSearch.weighted_query_vec, OptimizedTFIDFSVDSearch.query_vec,
      engineW, dotL]
  have hq : QueryResult engineW "streamer query" 5 (Except.ok [recW0, recW1]) :=
    ⟨[0], 0, Or.inl ⟨by rw [hw]; norm_num [sumSq], hw.symm⟩, engineW_eval.symm⟩
  exact claim_c8_deterministic engineW "streamer query" 5 _ _ hq hq

/-- Claim C9 (vocabulary round trip, modelled from the spec): for every term
of the vocabulary, term-to-index followed by index-to-term recovers the term;
and on a duplicate-free vocabulary, index-to-term followed by term-to-index
recovers the index (the two maps form a bijection on the vocabulary). -/
theorem claim_c9_vocab_round_trip (terms : List String) (hnd : terms.Nodup) :
    (∀ t ∈ terms, ∃ i, word_to_index terms t = some i ∧ index_to_word terms i = some t) ∧
    (∀ i, i < terms.length →
      ∃ t, index_to_word terms i = some t ∧ word_to_index terms t = some i) := by
  constructor
  · intro t ht
    induction terms with
    | nil => cases ht
    | cons a ts ih =>
      by_cases hat : a = t
      · subst hat
        exact ⟨0, by simp [word_to_index, List.indexOf?_cons], rfl⟩
      · have htm : t ∈ ts := by
          rcases List.mem_cons.mp ht with h | h
          · exact absurd h.symm hat
          · exact h
        obtain ⟨i, hwi, hiw⟩ := ih (List.Nodup.of_cons hnd) htm
        refine ⟨i + 1, ?_, hiw⟩
        have hbeq : (a == t) = false := beq_eq_false_iff_ne.mpr hat
        simp only [word_to_index, List.indexOf?_cons, hbeq, if_false]
        simp only [word_to_index] at hwi
        rw [hwi]
        rfl
  · intro i hi
    induction terms generalizing i with
    | nil => simp at hi
    | cons a ts ih =>
      cases i with
      | zero =>
        refine ⟨a, rfl, ?_⟩
        simp [word_to_index, List.indexOf?_cons]
      | succ i =>
        have hi2 : i < ts.length := by simpa using hi
        obtain ⟨t, hiw, hwi⟩ := ih (List.Nodup.of_cons hnd) i hi2
        refine ⟨t, hiw, ?_⟩
        have htm : t ∈ ts := by
          have hiw2 : ts.get? i = some t := hiw
          exact List.get?_mem hiw2
        have hat : a ≠ t := by
          intro hEq
          rw [hEq] at hnd
          exact (List.nodup_cons.mp hnd).1 htm
        have hbeq : (a == t) = false := beq_eq_false_iff_ne.mpr hat
        simp only [word_to_index, List.indexOf?_cons, hbeq, if_false]
        simp only [word_to_index] at hwi
        rw [hwi]
        rfl

/-- Witness for claim C9 on a concrete two-term vocabulary. -/
theorem claim_c9_vocab_round_trip_witness :
    (∀ t ∈ ["alpha", "beta"], ∃ i, word_to_index ["alpha", "beta"] t = some i ∧
      index_to_word ["alpha", "beta"] i = some t) ∧
    (∀ i, i < (["alpha", "beta"] : List String).length →
      ∃ t, index_to_word ["alpha", "beta"] i = some t ∧
        word_to_index ["alpha", "beta"] t = some i) :=
  claim_c9_vocab_round_trip ["alpha", "beta"] (by decide)

/-- Claim C10: with an empty or missing name parameter the /search handler
returns the empty list and never invokes the query engine: its output is the
same whatever engine-query function is installed. -/
theorem claim_c10_empty_query_short_circuit
    (engineQuery1 engineQuery2 : String → Nat → Except String (List ResultRec))
    (twitch_info csv_info : String → Option (List (String × String)))
    (nameParam : Option String)
    (h : nameParam = none ∨ nameParam = some "") :
    search_streamer engineQuery1 twitch_info csv_info nameParam = Except.ok [] ∧
    search_streamer engineQuery1 twitch_info csv_info nameParam =
      search_streamer engineQuery2 twitch_info csv_info nameParam := by
  rcases h with rfl | rfl <;> constructor <;> simp [search_streamer]

/-- Witness for claim C10 with two visibly different engine-query functions. -/
theorem claim_c10_empty_query_short_circuit_witness :
    search_streamer (fun _ _ => Except.ok []) (fun _ => none) (fun _ => none) (some "") =
      Except.ok [] ∧
    search_streamer (fun _ _ => Except.ok []) (fun _ => none) (fun _ => none) (some "") =
      search_streamer (fun _ _ => Except.error "engine invoked") (fun _ => none)
        (fun _ => none) (some "") :=
  claim_c10_empty_query_short_circuit (fun _ _ => Except.ok [])
    (fun _ _ => Except.error "engine invoked") (fun _ => none) (fun _ => none)
    (some "") (Or.inr rfl)
